import Mathlib

/-!
Shallow embedding of the yolo-serving-template repository, covering the
components the claims concern:

* `client/http.py` — `YoloHTTPClient` (the spec's RetryingHTTPClient):
  retry/backoff loop of `predict` / `predict_async` (both methods run the
  same algorithm; the async variant differs only in how it waits, so one
  embedding covers both).
* `app/main.py` — the `/predict` upload handler: content-type gate,
  chunked size-bounded write, optional image validation, model dispatch.
* `app/loader.py` — `YolovXAdapter.load` and the `get_model` factory.
* `app/model.py` — `StubModel.infer`.
* `app/utils/postprocess.py` — `format_detections`.

External effects (HTTP responses, the filesystem, the `ultralytics`
library, Pillow) are modelled as explicit oracle inputs; Python exceptions
are modelled with `Except`; Python floats used only for backoff arithmetic
(products of a base with powers of two, exact in floating point) are
modelled as rationals.
-/

namespace YoloServing

/-! ## `client/http.py` — `YoloHTTPClient` retry/backoff -/

/-- What the network yields for one attempt: either a transport-level
failure (`httpx.RequestError`) or a response with a status code and a JSON
body (the body abstracted to a string). -/
inductive Outcome where
  | netError (msg : String)
  | response (code : Nat) (body : String)
deriving DecidableEq, Repr

/-- The two exception kinds the client's `except` clause catches:
`httpx.RequestError` and `httpx.HTTPStatusError`. -/
inductive Failure where
  | requestError (msg : String)
  | statusError (code : Nat)
deriving DecidableEq, Repr

/-- Client configuration, per `YoloHTTPClient.__init__` (only the fields
the retry loop reads). -/
structure YoloHTTPClient where
  retries : Nat
  backoffFactor : ℚ
  retryStatuses : List Nat
deriving DecidableEq, Repr

/-- Default retry statuses from `__init__`: 429 and the 5xx family. -/
def defaultRetryStatuses : List Nat := [429, 500, 502, 503, 504]

/-- Constructor `YoloHTTPClient.__init__`: `self.retries = max(1, int(retries))`;
`retry_statuses=None` selects the default set. -/
def mkClient (retries : Int) (backoffFactor : ℚ)
    (retryStatuses : Option (List Nat) := none) : YoloHTTPClient :=
  { retries := (max 1 retries).toNat
    backoffFactor := backoffFactor
    retryStatuses := retryStatuses.getD defaultRetryStatuses }

/-- Backoff schedule `_get_backoff`: `backoff_factor * (2 ** (attempt-1))`. -/
def YoloHTTPClient.getBackoff (c : YoloHTTPClient) (attempt : Nat) : ℚ :=
  c.backoffFactor * 2 ^ (attempt - 1)

/-- One iteration of the `try` body in `predict`: raise a status error for
a status in `retry_statuses`; otherwise `raise_for_status()` raises for
any 4xx/5xx; otherwise return the parsed JSON body. -/
def attemptResult (c : YoloHTTPClient) (o : Outcome) : Except Failure String :=
  match o with
  | .netError msg => .error (.requestError msg)
  | .response code body =>
    if code ∈ c.retryStatuses then .error (.statusError code)
    else if 400 ≤ code ∧ code < 600 then .error (.statusError code)
    else .ok body

/-- Errors `predict` can surface: `FileNotFoundError` before the loop, or
the last caught failure once attempts are exhausted. -/
inductive PredictError where
  | fileNotFoundError
  | failure (f : Failure)
deriving DecidableEq, Repr

/-- Observable run of `predict`: its result, how many attempts were made,
and the sequence of backoff waits (in order). -/
structure PredictTrace where
  result : Except PredictError String
  attempts : Nat
  waits : List ℚ
deriving Repr

/-- The `for attempt in range(1, self.retries + 1)` loop, with
`fuel = self.retries - attempt + 1` remaining iterations (so `fuel = 1`
means the current attempt is the last; the `fuel = 0` arm is unreachable
because `retries ≥ 1`).  The `except` clause catches *both*
`httpx.RequestError` and `httpx.HTTPStatusError`, so every
`attemptResult` error takes the retry path. -/
def predictLoop (c : YoloHTTPClient) (resp : Nat → Outcome) :
    Nat → Nat → PredictTrace
  | _, 0 => ⟨.error .fileNotFoundError, 0, []⟩
  | attempt, fuel + 1 =>
    match attemptResult c (resp attempt) with
    | .ok body => ⟨.ok body, 1, []⟩
    | .error e =>
      if fuel = 0 then
        -- `attempt == self.retries`: break, then `raise last_exc`
        ⟨.error (.failure e), 1, []⟩
      else
        let rest := predictLoop c resp (attempt + 1) fuel
        ⟨rest.result, rest.attempts + 1, c.getBackoff attempt :: rest.waits⟩

/-- Entry point `YoloHTTPClient.predict` (and `predict_async`, identical but for the
wait primitive): `resp k` is the network outcome of attempt `k`. -/
def YoloHTTPClient.predict (c : YoloHTTPClient) (fileExists : Bool)
    (resp : Nat → Outcome) : PredictTrace :=
  if fileExists then predictLoop c resp 1 c.retries
  else ⟨.error .fileNotFoundError, 0, []⟩

/-! ## `app/utils/postprocess.py` — `format_detections` -/

/-- The stable detection schema
`{"box": [x1,y1,x2,y2], "score": float, "class_id": int, "label": str}`
(floats modelled as rationals: `format_detections` only copies them). -/
structure Detection where
  box : List ℚ
  score : ℚ
  classId : Int
  label : String
deriving DecidableEq, Repr

/-- Function `format_detections`: zip the three arrays (Python `zip` truncates to
the shortest), and for each row build a `Detection`;
`label = names.get(int(c), str(int(c)))`.  A raw box is the 4-tuple
`(b[0], b[1], b[2], b[3])` of an `xyxy` row; `names=None` defaults to the
empty dict; class indices appear already converted by `int(c)`. -/
def format_detections (boxes : List (ℚ × ℚ × ℚ × ℚ)) (scores : List ℚ)
    (classes : List Int) (names : Option (List (Int × String)) := none) :
    List Detection :=
  let ns := names.getD []
  (boxes.zip (scores.zip classes)).map fun p =>
    { box := [p.1.1, p.1.2.1, p.1.2.2.1, p.1.2.2.2]
      score := p.2.1
      classId := p.2.2
      label := ((ns.lookup p.2.2).getD (toString p.2.2)) }

/-! ## `app/model.py` — `StubModel` -/

/-- Schema `ModelMeta`: the `"model"` entry of the stable result schema. -/
structure ModelMeta where
  adapter : String
  mode : String
  version : Option String
deriving DecidableEq, Repr

/-- Schema `DetectionResult`: the stable result schema returned by every adapter —
keys `image`, `width`, `height`, `detections`, `model`. -/
structure DetectionResult where
  image : String
  width : Option Int
  height : Option Int
  detections : List Detection
  model : ModelMeta
deriving DecidableEq, Repr

/-- Method `StubModel.infer`: always the empty-but-stable schema. -/
def StubModel.infer (imagePath : String) : DetectionResult :=
  { image := imagePath
    width := none
    height := none
    detections := []
    model := { adapter := "stub", mode := "dry-run", version := none } }

/-! ## `app/main.py` — the `/predict` upload handler

The handler is modelled per request: bytes are naturals, the uploaded
stream is the list of chunks successive `await file.read(chunk_size)`
calls return (a real stream yields non-empty chunks until end of file,
then an empty one), and the request's upload file is `Option` content
(`none` = the path does not exist on disk). -/

/-- Constant `MAX_UPLOAD_SIZE = 5 * 1024 * 1024`. -/
def MAX_UPLOAD_SIZE : Nat := 5 * 1024 * 1024

/-- Constant `ALLOWED_CONTENT_TYPES`, the set of the three allowed image
media types (jpeg, png, webp). -/
def ALLOWED_CONTENT_TYPES : List String :=
  ["image/jpeg", "image/png", "image/webp"]

/-- Python `str.lower()`, implemented character by character (the
strings the code lowercases — content types and adapter names — are
ASCII, where `Char.toLower` agrees with Python). -/
def pyToLower (s : String) : String := ⟨s.toList.map Char.toLower⟩

/-- Deletion `path.unlink()` wrapped in `try/except FileNotFoundError: pass`:
removes the file whether or not it is still present, never failing. -/
def unlinkIdempotent (_file : Option (List Nat)) : Option (List Nat) := none

/-- The `while True` read/write loop: accumulate chunks into the file,
tracking `uploaded`; an empty chunk ends the stream; the moment
`uploaded` exceeds `maxSize` the loop aborts *before* writing the
offending chunk (`f.write(chunk)` comes after the size check).  `.ok` is
the complete file content; `.error` is the partial content on disk at the
instant of the 413 abort (just before `path.unlink()`). -/
def streamWrite (maxSize : Nat) :
    List (List Nat) → Nat → List Nat → Except (List Nat) (List Nat)
  | [], _, written => .ok written
  | chunk :: rest, uploaded, written =>
    if chunk.length = 0 then .ok written
    else
      if maxSize < uploaded + chunk.length then .error written
      else streamWrite maxSize rest (uploaded + chunk.length) (written ++ chunk)

/-- Per-request server context: whether Pillow imports, whether
`Image.verify` accepts given file content, and the configured model —
`none` when `MODEL is None`, otherwise the outcome of `MODEL.infer` on
this request's saved file (`.error` = the inference call raised). -/
structure ServerCtx where
  pillow : Bool
  imageOk : List Nat → Bool
  modelOutcome : Option (Except String DetectionResult)

/-- The three response bodies the endpoint can produce: an
`HTTPException` detail, the `{"message": ..., "path": ...}` dry-run body,
or the `{"result": ..., "path": ...}` success body. -/
inductive RespBody where
  | detail (msg : String)
  | dryRun (path : String)
  | result (r : DetectionResult) (path : String)
deriving DecidableEq, Repr

/-- The path string a response body references, if any. -/
def RespBody.pathRef : RespBody → Option String
  | .detail _ => none
  | .dryRun p => some p
  | .result _ p => some p

/-- What a request leaves behind: the HTTP status, the state of this
request's upload file on disk after the response, and the body. -/
structure HandlerResult where
  status : Nat
  file : Option (List Nat)
  body : RespBody
deriving Repr

/-- The `/predict` endpoint (`predict` in `app/main.py`): content-type
gate, streamed size-bounded write, optional Pillow validation, then model
dispatch.  `path` abbreviates the freshly generated
`UPLOAD_DIR / f"{uuid4().hex}_{safe_name}"` for this request. -/
def predictEndpoint (ctx : ServerCtx) (contentType : Option String)
    (path : String) (chunks : List (List Nat)) : HandlerResult :=
  let ct := pyToLower (contentType.getD "")
  if ¬ ct ∈ ALLOWED_CONTENT_TYPES then
    { status := 400, file := none
      body := .detail ("unsupported content type: " ++ ct) }
  else
    match streamWrite MAX_UPLOAD_SIZE chunks 0 [] with
    | .error leftover =>
      { status := 413, file := unlinkIdempotent (some leftover)
        body := .detail "file too large" }
    | .ok written =>
      if ctx.pillow && !ctx.imageOk written then
        { status := 400, file := unlinkIdempotent (some written)
          body := .detail "invalid image file" }
      else
        match ctx.modelOutcome with
        | none =>
          { status := 200, file := some written
            body := .dryRun path }
        | some (.ok r) =>
          { status := 200, file := some written
            body := .result r path }
        | some (.error msg) =>
          { status := 500, file := some written
            body := .detail msg }

/-! ## `app/loader.py` — `YolovXAdapter` and `get_model` -/

/-- Python truthiness of an optional string (`if weights_path and ...`):
`None` and the empty string are falsy. -/
def pyTruthy : Option String → Bool
  | none => false
  | some s => !(s == "")

/-- Environment oracle for `YolovXAdapter.load`: whether
`from ultralytics import YOLO` succeeds and its `__version__`, whether
`YOLO(weights_path)` / `YOLO()` construction succeeds, which paths
`os.path.exists` affirms, and the `names` table of a constructed model. -/
structure UlEnv where
  importOk : Bool
  ulVersion : Option String
  weightsCtorOk : Bool
  bareCtorOk : Bool
  pathExists : String → Bool
  modelNames : List (Int × String)

/-- The `YolovXAdapter` state the claims read: whether `self.model` is a
real object, plus `mode`, `names`, `version`. -/
structure YolovXAdapter where
  hasModel : Bool
  mode : String
  names : List (Int × String)
  version : Option String
deriving Repr

/-- Constructor `YolovXAdapter.__init__`: no model, `mode = "dry-run"`, empty names,
no version. -/
def YolovXAdapter.init : YolovXAdapter :=
  { hasModel := false, mode := "dry-run", names := [], version := none }

/-- Method `YolovXAdapter.load`.  The whole body sits in a `try` whose
`except Exception` (reached when the `ultralytics` import fails) resets to
dry-run.  With the import available: existing truthy weights try
`YOLO(weights_path)` — success gives `mode = "inference"`, a constructor
exception gives `model = None, mode = "no-weights"`; otherwise `YOLO()`
is tried and `mode = "no-weights"` either way.  Finally
`self.names = getattr(self.model, "names", {}) or {}`. -/
def YolovXAdapter.load (env : UlEnv) (a : YolovXAdapter)
    (weightsPath : Option String) : YolovXAdapter :=
  if env.importOk then
    let hm :=
      if pyTruthy weightsPath && env.pathExists (weightsPath.getD "") then
        (if env.weightsCtorOk then (true, "inference")
         else (false, "no-weights"))
      else
        (if env.bareCtorOk then (true, "no-weights")
         else (false, "no-weights"))
    { hasModel := hm.1
      mode := hm.2
      names := if hm.1 then env.modelNames else []
      version := env.ulVersion }
  else
    { a with hasModel := false, mode := "dry-run", names := [] }

/-- Membership `s2 in s1` on Python strings: `needle` occurs as a contiguous
substring of `hay`. -/
def charsContain (needle : List Char) : List Char → Bool
  | [] => needle.isEmpty
  | c :: rest => needle.isPrefixOf (c :: rest) || charsContain needle rest

/-- String version of `charsContain`. -/
def strContainsSub (hay needle : String) : Bool :=
  charsContain needle.toList hay.toList

/-- The adapter-name normalization at the top of `get_model`:
`adapter = (adapter or "stub").lower()`, then the alias checks choosing
`"yolovx"` or `"stub"`. -/
def chooseAdapter (adapter : Option String) : String :=
  let a := pyToLower (if pyTruthy adapter then adapter.getD "" else "stub")
  if List.isPrefixOf "yolo".toList a.toList ||
      List.isPrefixOf "yolov".toList a.toList ||
      strContainsSub a "yolovx" || strContainsSub a "yolov" then "yolovx"
  else if a == "yolovx" || a == "yolox" then "yolovx"
  else "stub"

/-- A constructed model instance: `StubModel` has no state the claims
read; `YolovXAdapter` carries its adapter state. -/
inductive ModelInstance where
  | stub
  | yolovx (a : YolovXAdapter)
deriving Repr

/-- Whether an instance is the stub. -/
def ModelInstance.isStub : ModelInstance → Bool
  | .stub => true
  | .yolovx _ => false

/-- Dynamic dispatch of `m.load(weights)` in `get_model`, abstracted over
arbitrary `BaseModel` implementations: each load returns the instance's
state after the call together with the exception it raised, if any
(in Python the mutated object survives a raise).  The embedded
`StubModel.load` and `YolovXAdapter.load` never raise — their bodies
catch everything — but `get_model`'s `try/except` must swallow a raise
from any implementation. -/
structure LoadDispatch where
  stubLoad : Option String → Option String
  yoloLoad : YolovXAdapter → Option String → YolovXAdapter × Option String

/-- The `m.load(weights)` call site: run the variant's load, keep the
resulting state; the surrounding `try/except Exception` logs and swallows
any raise, so the error component is discarded. -/
def dispatchLoad (d : LoadDispatch) (m : ModelInstance)
    (weights : Option String) : ModelInstance × Option String :=
  match m with
  | .stub => (.stub, d.stubLoad weights)
  | .yolovx a =>
    let r := d.yoloLoad a weights
    (.yolovx r.1, r.2)

/-- Factory `get_model(adapter, weights)` with every potentially raising step made
explicit: normalize the adapter name, normalize the weights path inside
`try/except` (`resolve` is the filesystem oracle for
`Path.expanduser/resolve`; a raise leaves `weights` unchanged), construct
the chosen instance, call `load` inside `try/except`.  The return type is
`Except` so that "never raises" is a provable statement rather than a
typing artefact: an uncaught exception would surface as `.error`. -/
def get_model (d : LoadDispatch) (resolve : String → Except String String)
    (adapter : Option String) (weights : Option String) :
    Except String ModelInstance :=
  let chosen := chooseAdapter adapter
  let weights' : Option String :=
    if pyTruthy weights then
      match resolve (weights.getD "") with
      | .ok w => some w
      | .error _ => weights
    else weights
  let m : ModelInstance :=
    if chosen == "yolovx" then .yolovx .init else .stub
  .ok (dispatchLoad d m weights').1

/-! ## Auxiliary definitions used by the statements and witnesses -/

/-- The claim-facing classification the source's retry loop creates
explicitly: network errors (`httpx.RequestError`) and response statuses
in `retry_statuses` are the *retryable* failures (`last_exc` is set for
exactly these before `raise_for_status` runs). -/
def retryableOutcome (c : YoloHTTPClient) : Outcome → Bool
  | .netError _ => true
  | .response code _ => c.retryStatuses.contains code

/-- A benign server context for concrete evaluations: Pillow present,
every file accepted as an image, no model configured. -/
def okCtx : ServerCtx :=
  { pillow := true, imageOk := fun _ => true, modelOutcome := none }

/-- Environment refuting C2's third branch: the detector library imports,
the weights file exists, but `YOLO(weights_path)` raises. -/
def c2Env : UlEnv :=
  { importOk := true
    ulVersion := some "8.0.0"
    weightsCtorOk := false
    bareCtorOk := true
    pathExists := fun _ => true
    modelNames := [] }

/-! ## Helper lemmas -/

/-- A retryable outcome makes the attempt body raise a caught failure. -/
theorem retryable_err (c : YoloHTTPClient) (o : Outcome)
    (h : retryableOutcome c o = true) :
    ∃ e, attemptResult c o = .error e := by
  cases o with
  | netError msg => exact ⟨.requestError msg, rfl⟩
  | response code body =>
    refine ⟨.statusError code, ?_⟩
    have hmem : code ∈ c.retryStatuses := by
      simpa [retryableOutcome] using h
    simp [attemptResult, hmem]

/-- Unfolding `predictLoop` when the current attempt succeeds. -/
theorem predictLoop_ok (c : YoloHTTPClient) (resp : Nat → Outcome)
    (attempt fuel : Nat) (body : String)
    (h : attemptResult c (resp attempt) = .ok body) :
    predictLoop c resp attempt (fuel + 1) = ⟨.ok body, 1, []⟩ := by
  simp [predictLoop, h]

/-- Unfolding `predictLoop` when the last remaining attempt fails: the
loop breaks and re-raises, with no backoff wait. -/
theorem predictLoop_last (c : YoloHTTPClient) (resp : Nat → Outcome)
    (attempt : Nat) (e : Failure)
    (h : attemptResult c (resp attempt) = .error e) :
    predictLoop c resp attempt 1 = ⟨.error (.failure e), 1, []⟩ := by
  show predictLoop c resp attempt (0 + 1) = _
  simp [predictLoop, h]

/-- Unfolding `predictLoop` when a non-final attempt fails: one backoff
wait, then the loop continues at the next attempt. -/
theorem predictLoop_retry (c : YoloHTTPClient) (resp : Nat → Outcome)
    (attempt fuel : Nat) (e : Failure)
    (h : attemptResult c (resp attempt) = .error e) :
    predictLoop c resp attempt (fuel + 2) =
      ⟨(predictLoop c resp (attempt + 1) (fuel + 1)).result,
        (predictLoop c resp (attempt + 1) (fuel + 1)).attempts + 1,
        c.getBackoff attempt :: (predictLoop c resp (attempt + 1) (fuel + 1)).waits⟩ := by
  show predictLoop c resp attempt ((fuel + 1) + 1) = _
  simp [predictLoop, h]

/-- If every attempt in the window fails, the loop makes all of them,
waits between consecutive attempts only, and surfaces the failure of the
last one. -/
theorem predictLoop_all_err (c : YoloHTTPClient) (resp : Nat → Outcome) :
    ∀ (fuel attempt : Nat) (e : Failure),
      attemptResult c (resp (attempt + fuel)) = .error e →
      (∀ k, attempt ≤ k → k < attempt + fuel →
        ∃ e', attemptResult c (resp k) = .error e') →
      predictLoop c resp attempt (fuel + 1) =
        ⟨.error (.failure e), fuel + 1,
          (List.range fuel).map (fun i => c.getBackoff (attempt + i))⟩ := by
  intro fuel
  induction fuel with
  | zero =>
    intro attempt e hlast _
    rw [Nat.add_zero] at hlast
    simpa using predictLoop_last c resp attempt e hlast
  | succ f ih =>
    intro attempt e hlast hall
    obtain ⟨e0, he0⟩ := hall attempt le_rfl (by omega)
    rw [show f + 1 + 1 = f + 2 from rfl,
      predictLoop_retry c resp attempt f e0 he0]
    have hlast' : attemptResult c (resp ((attempt + 1) + f)) = .error e := by
      rw [show (attempt + 1) + f = attempt + (f + 1) from by omega]
      exact hlast
    have hall' : ∀ k, attempt + 1 ≤ k → k < (attempt + 1) + f →
        ∃ e', attemptResult c (resp k) = .error e' := by
      intro k hk1 hk2
      exact hall k (by omega) (by omega)
    rw [ih (attempt + 1) e hlast' hall']
    refine congrArg₂ (PredictTrace.mk _) rfl ?_
    rw [List.range_succ_eq_map, List.map_cons, List.map_map]
    refine congrArg₂ List.cons (by rw [Nat.add_zero]) ?_
    refine List.map_congr_left fun a _ => ?_
    simp [Function.comp]
    congr 1
    omega

/-- Streamed write: when every chunk is non-empty and the total size
exceeds the ceiling, the loop aborts with a 413, and the bytes on disk at
the abort never exceed the ceiling (the over-limit chunk was not
appended). -/
theorem streamWrite_overflow (maxSize : Nat) (chunks : List (List Nat)) :
    ∀ (uploaded : Nat) (written : List Nat),
      (∀ c ∈ chunks, c ≠ []) →
      maxSize < uploaded + (chunks.map List.length).sum →
      uploaded ≤ maxSize → written.length = uploaded →
      ∃ leftover,
        streamWrite maxSize chunks uploaded written = .error leftover ∧
          leftover.length ≤ maxSize := by
  induction chunks with
  | nil =>
    intro uploaded written _ hover hle _
    simp at hover
    omega
  | cons c rest ih =>
    intro uploaded written hne hover hle hlen
    have hclen : c.length ≠ 0 := by
      have := hne c (by simp)
      simpa [List.length_eq_zero] using this
    by_cases hov1 : maxSize < uploaded + c.length
    · exact ⟨written, by simp [streamWrite, hclen, hov1], by omega⟩
    · obtain ⟨l, hl, hllen⟩ := ih (uploaded + c.length) (written ++ c)
        (fun d hd => hne d (by simp [hd]))
        (by simp at hover ⊢; omega) (by omega) (by simp [hlen])
      exact ⟨l, by simpa [streamWrite, hclen, hov1] using hl, hllen⟩

/-- Streamed write: when every chunk is non-empty and the total size fits
under the ceiling, the loop writes all chunks in order. -/
theorem streamWrite_complete (maxSize : Nat) (chunks : List (List Nat)) :
    ∀ (uploaded : Nat) (written : List Nat),
      (∀ c ∈ chunks, c ≠ []) →
      uploaded + (chunks.map List.length).sum ≤ maxSize →
      streamWrite maxSize chunks uploaded written =
        .ok (written ++ chunks.flatten) := by
  induction chunks with
  | nil => intro uploaded written _ _; simp [streamWrite]
  | cons c rest ih =>
    intro uploaded written hne hfit
    have hclen : c.length ≠ 0 := by
      have := hne c (by simp)
      simpa [List.length_eq_zero] using this
    have hov1 : ¬ maxSize < uploaded + c.length := by
      simp at hfit
      omega
    rw [streamWrite]
    simp only [hclen, if_false, hov1, ite_false]
    have := ih (uploaded + c.length) (written ++ c)
      (fun d hd => hne d (by simp [hd])) (by simp at hfit ⊢; omega)
    simpa [List.append_assoc] using this

/-- Indexing a double zip: if all three lists have an entry at `i`, so
does the zip, and it is the triple of those entries. -/
theorem zip3_getElem? {α β γ : Type} :
    ∀ (bs : List α) (ss : List β) (cs : List γ) (i : Nat) (b : α) (s : β)
      (c : γ), bs[i]? = some b → ss[i]? = some s → cs[i]? = some c →
      (bs.zip (ss.zip cs))[i]? = some (b, (s, c))
  | [], _, _, _, _, _, _, hb, _, _ => by simp at hb
  | _ :: _, [], _, _, _, _, _, _, hs, _ => by simp at hs
  | _ :: _, _ :: _, [], _, _, _, _, _, _, hc => by simp at hc
  | _ :: _, _ :: _, _ :: _, 0, _, _, _, hb, hs, hc => by
    simp_all
  | b₀ :: bs, s₀ :: ss, c₀ :: cs, i + 1, b, s, c, hb, hs, hc => by
    simpa using zip3_getElem? bs ss cs i b s c (by simpa using hb)
      (by simpa using hs) (by simpa using hc)

/-! ## C9 -/

/-- C9: for every input path, `StubModel.infer` returns a result whose
`detections` field is the empty sequence and whose `model.mode` equals
`"dry-run"`, and the result is a full `DetectionResult` record (keys
`image`, `width`, `height`, `detections`, `model` all present). -/
theorem stub_infer_empty_dry_run (p : String) :
    (StubModel.infer p).detections = [] ∧
      (StubModel.infer p).model.mode = "dry-run" ∧
      StubModel.infer p =
        { image := (StubModel.infer p).image
          width := (StubModel.infer p).width
          height := (StubModel.infer p).height
          detections := []
          model := { adapter := "stub", mode := "dry-run", version := none } } :=
  ⟨rfl, rfl, rfl⟩

/-! ## C8 -/

/-- C8: `format_detections` on possibly mismatched-length inputs returns
exactly `min (min |boxes| |scores|) |classes|` detections, in input
order: entry `i` of the output is built from entries `i` of the inputs,
with `label` the name-table entry for the class index when present and
the stringified integer index otherwise. -/
theorem format_detections_min_len_order (boxes : List (ℚ × ℚ × ℚ × ℚ))
    (scores : List ℚ) (classes : List Int)
    (names : Option (List (Int × String))) :
    (format_detections boxes scores classes names).length =
        min (min boxes.length scores.length) classes.length ∧
      ∀ (i : Nat) (b : ℚ × ℚ × ℚ × ℚ) (s : ℚ) (c : Int),
        boxes[i]? = some b → scores[i]? = some s → classes[i]? = some c →
        (format_detections boxes scores classes names)[i]? =
          some { box := [b.1, b.2.1, b.2.2.1, b.2.2.2]
                 score := s
                 classId := c
                 label := ((names.getD []).lookup c).getD (toString c) } := by
  constructor
  · simp [format_detections, Nat.min_assoc]
  · intro i b s c hb hs hc
    have hz := zip3_getElem? boxes scores classes i b s c hb hs hc
    simp [format_detections, List.getElem?_map, hz]

/-- Witness for C8 at mismatched concrete inputs: two boxes, three
scores, one class; the class index 7 is absent from the name table, so
the label falls back to `"7"`. -/
theorem format_detections_min_len_order_witness :
    (format_detections [((1 : ℚ), 2, 3, 4), (5, 6, 7, 8)] [(9 : ℚ), 10, 11]
          [(7 : Int)] (some [(0, "person")])).length = 1 ∧
      (format_detections [((1 : ℚ), 2, 3, 4), (5, 6, 7, 8)] [(9 : ℚ), 10, 11]
          [(7 : Int)] (some [(0, "person")]))[0]? =
        some { box := [1, 2, 3, 4], score := 9, classId := 7, label := "7" } := by
  refine ⟨?_, ?_⟩
  · exact (format_detections_min_len_order _ _ _ _).1.trans (by decide)
  · exact (format_detections_min_len_order [((1 : ℚ), 2, 3, 4), (5, 6, 7, 8)]
      [(9 : ℚ), 10, 11] [(7 : Int)] (some [(0, "person")])).2 0
      (1, 2, 3, 4) 9 7 rfl rfl rfl

/-! ## C2 -/

/-- C2 counterexample: with the library present, the weights file
existing, and detector construction from those weights raising,
`YolovXAdapter.load` leaves `mode = "no-weights"`, not `"dry-run"` as the
claim states. -/
theorem yolovx_load_ctor_failure_not_dry_run :
    c2Env.importOk = true ∧
      c2Env.pathExists "weights.pt" = true ∧
      c2Env.weightsCtorOk = false ∧
      (YolovXAdapter.load c2Env .init (some "weights.pt")).mode =
        "no-weights" ∧
      ¬ (YolovXAdapter.load c2Env .init (some "weights.pt")).mode =
        "dry-run" := by
  refine ⟨rfl, rfl, rfl, rfl, ?_⟩
  intro h
  simp [YolovXAdapter.load, c2Env, pyTruthy] at h

/-- C2 (amended): with the detector library present, `load` on a
non-empty weights path sets `mode = "inference"` when the file exists and
construction succeeds, and `mode = "no-weights"` both when the file is
missing and when construction from the existing file raises (the code
reserves `"dry-run"` for a failed library import). -/
theorem yolovx_load_modes (env : UlEnv) (a : YolovXAdapter) (w : String)
    (himp : env.importOk = true) (hw : w ≠ "") :
    (env.pathExists w = true → env.weightsCtorOk = true →
        (YolovXAdapter.load env a (some w)).mode = "inference") ∧
      (env.pathExists w = false →
        (YolovXAdapter.load env a (some w)).mode = "no-weights") ∧
      (env.pathExists w = true → env.weightsCtorOk = false →
        (YolovXAdapter.load env a (some w)).mode = "no-weights") := by
  refine ⟨fun hex hc => ?_, fun hex => ?_, fun hex hc => ?_⟩
  · simp [YolovXAdapter.load, pyTruthy, himp, hw, hex, hc]
  · cases hb : env.bareCtorOk <;>
      simp [YolovXAdapter.load, pyTruthy, himp, hw, hex, hb]
  · simp [YolovXAdapter.load, pyTruthy, himp, hw, hex, hc]

/-- Witness for C2's amended theorem: all three branches evaluated on
concrete environments. -/
theorem yolovx_load_modes_witness :
    (YolovXAdapter.load { c2Env with weightsCtorOk := true } .init
        (some "weights.pt")).mode = "inference" ∧
      (YolovXAdapter.load { c2Env with pathExists := fun _ => false } .init
        (some "weights.pt")).mode = "no-weights" ∧
      (YolovXAdapter.load c2Env .init (some "weights.pt")).mode =
        "no-weights" := by
  refine ⟨?_, ?_, ?_⟩
  · exact (yolovx_load_modes { c2Env with weightsCtorOk := true } .init
      "weights.pt" rfl (by decide)).1 rfl rfl
  · exact (yolovx_load_modes { c2Env with pathExists := fun _ => false } .init
      "weights.pt" rfl (by decide)).2.1 rfl
  · exact (yolovx_load_modes c2Env .init "weights.pt" rfl (by decide)).2.2
      rfl rfl

/-! ## C10 -/

/-- C10: `get_model` is total and never raises — for every load
implementation (including ones that raise), every filesystem oracle, and
every adapter/weights argument it returns `.ok` with a model instance;
and whenever the adapter name normalizes to `"stub"` (it is not
recognized as a yolo variant), the returned instance is the stub. -/
theorem get_model_total_never_raises (d : LoadDispatch)
    (resolve : String → Except String String)
    (adapter weights : Option String) :
    (∃ m, get_model d resolve adapter weights = .ok m) ∧
      (chooseAdapter adapter = "stub" →
        get_model d resolve adapter weights = .ok .stub) := by
  refine ⟨⟨_, rfl⟩, fun h => ?_⟩
  simp [get_model, h, dispatchLoad]

/-- Witness for C10: an unrecognized adapter name, a resolver that always
raises, and load implementations that always raise still produce
`.ok ModelInstance.stub`. -/
theorem get_model_total_never_raises_witness :
    get_model
        { stubLoad := fun _ => some "load blew up"
          yoloLoad := fun a _ => (a, some "load blew up") }
        (fun _ => .error "fs error") (some "resnet50") (some "w.pt") =
      .ok .stub :=
  (get_model_total_never_raises _ _ (some "resnet50") (some "w.pt")).2
    (by decide)

/-! ## C1 -/

/-- C1 (evaluation at the failing input): with the default configuration
(`retries=3`, `backoff_factor=0.5`, default retryable statuses), a 404
response — a client error *not* in the retryable set — is nevertheless
retried: the client performs all 3 attempts with 2 backoff waits before
raising the status error, because the `except` clause catches the
`HTTPStatusError` that `raise_for_status()` threw.  The claim's
"raise immediately after that attempt, no further attempts, no backoff
wait" is false on the code. -/
theorem nonretryable_status_is_retried :
    ¬ (404 ∈ (mkClient 3 (1/2)).retryStatuses) ∧
      retryableOutcome (mkClient 3 (1/2)) (.response 404 "not found") = false ∧
      (mkClient 3 (1/2)).predict true (fun _ => .response 404 "not found") =
        ⟨.error (.failure (.statusError 404)), 3, [1/2, 1]⟩ := by
  refine ⟨by decide, by decide, ?_⟩
  simp [mkClient, YoloHTTPClient.predict, predictLoop, attemptResult,
    defaultRetryStatuses, YoloHTTPClient.getBackoff]

/-! ## C4 -/

/-- C4: with `max_attempts ≥ 3` and responses
`[retryable, retryable, success]`, `predict` returns the success payload,
performs exactly 3 attempts, and waits exactly twice, the wait before
attempt `k+1` being `backoff_base * 2^(k-1)`. -/
theorem retry_twice_then_success (c : YoloHTTPClient) (resp : Nat → Outcome)
    (body : String) (hr : 3 ≤ c.retries)
    (h1 : retryableOutcome c (resp 1) = true)
    (h2 : retryableOutcome c (resp 2) = true)
    (h3 : resp 3 = .response 200 body)
    (h200 : ¬ (200 ∈ c.retryStatuses)) :
    c.predict true resp =
      ⟨.ok body, 3, [c.backoffFactor * 2 ^ 0, c.backoffFactor * 2 ^ 1]⟩ := by
  obtain ⟨e1, he1⟩ := retryable_err c _ h1
  obtain ⟨e2, he2⟩ := retryable_err c _ h2
  have h3ok : attemptResult c (resp 3) = .ok body := by
    simp [attemptResult, h3, h200]
  obtain ⟨k, hk⟩ : ∃ k, c.retries = k + 3 := ⟨c.retries - 3, by omega⟩
  have hloop : predictLoop c resp 1 (k + 3) =
      ⟨.ok body, 3, [c.getBackoff 1, c.getBackoff 2]⟩ := by
    rw [show k + 3 = (k + 1) + 2 from by omega,
      predictLoop_retry c resp 1 (k + 1) e1 he1,
      show (k + 1) + 1 = k + 2 from by omega,
      predictLoop_retry c resp 2 k e2 he2,
      predictLoop_ok c resp 3 k body h3ok]
  simp [YoloHTTPClient.predict, hk, hloop, YoloHTTPClient.getBackoff]

/-- Witness for C4: 4 attempts budgeted, a network error then a 503 then
a 200; the client returns the parsed body after exactly 3 attempts and
the two exponential waits. -/
theorem retry_twice_then_success_witness :
    (mkClient 4 (1/2)).predict true
        (fun k => if k = 1 then .netError "boom"
          else if k = 2 then .response 503 "unavailable"
          else .response 200 "ok") =
      ⟨.ok "ok", 3,
        [(mkClient 4 (1/2)).backoffFactor * 2 ^ 0,
          (mkClient 4 (1/2)).backoffFactor * 2 ^ 1]⟩ :=
  retry_twice_then_success (mkClient 4 (1/2))
    (fun k => if k = 1 then .netError "boom"
      else if k = 2 then .response 503 "unavailable"
      else .response 200 "ok")
    "ok" (by decide) (by decide) (by decide) (by decide) (by decide)

/-! ## C5 -/

/-- C5: given retryable failures on every attempt, `predict` raises
after exactly `max_attempts` attempts — never `max_attempts + 1` — the
raised exception is exactly the failure of the last attempt (no
wrapper), and there are only `max_attempts - 1` backoff waits, i.e. none
after the final attempt. -/
theorem exhaustion_raises_exact_last_failure (c : YoloHTTPClient)
    (resp : Nat → Outcome) (hpos : 1 ≤ c.retries)
    (hall : ∀ k, 1 ≤ k → k ≤ c.retries → retryableOutcome c (resp k) = true) :
    ∃ eLast, attemptResult c (resp c.retries) = .error eLast ∧
      c.predict true resp =
        ⟨.error (.failure eLast), c.retries,
          (List.range (c.retries - 1)).map (fun i => c.getBackoff (1 + i))⟩ ∧
      (c.predict true resp).waits.length = c.retries - 1 := by
  obtain ⟨eL, heL⟩ := retryable_err c _ (hall c.retries hpos le_rfl)
  have hlast' : attemptResult c (resp (1 + (c.retries - 1))) = .error eL := by
    rw [show 1 + (c.retries - 1) = c.retries from by omega]
    exact heL
  have hall' : ∀ k, 1 ≤ k → k < 1 + (c.retries - 1) →
      ∃ e', attemptResult c (resp k) = .error e' := fun k hk1 hk2 =>
    retryable_err c _ (hall k hk1 (by omega))
  have key := predictLoop_all_err c resp (c.retries - 1) 1 eL hlast' hall'
  rw [show c.retries - 1 + 1 = c.retries from by omega] at key
  refine ⟨eL, heL, ?_, ?_⟩
  · simpa [YoloHTTPClient.predict] using key
  · simp [YoloHTTPClient.predict, key]

/-- Witness for C5: two attempts, both network errors; the client raises
the second network error after exactly 2 attempts and one wait. -/
theorem exhaustion_raises_exact_last_failure_witness :
    ∃ eLast,
      attemptResult (mkClient 2 (1/2)) ((fun _ => Outcome.netError "down")
          (mkClient 2 (1/2)).retries) = .error eLast ∧
      (mkClient 2 (1/2)).predict true (fun _ => .netError "down") =
        ⟨.error (.failure eLast), (mkClient 2 (1/2)).retries,
          (List.range ((mkClient 2 (1/2)).retries - 1)).map
            (fun i => (mkClient 2 (1/2)).getBackoff (1 + i))⟩ ∧
      ((mkClient 2 (1/2)).predict true
          (fun _ => .netError "down")).waits.length =
        (mkClient 2 (1/2)).retries - 1 :=
  exhaustion_raises_exact_last_failure (mkClient 2 (1/2))
    (fun _ => .netError "down") (by decide) (fun _ _ _ => rfl)

/-! ## C6 -/

/-- C6: an upload whose content type does not lowercase into the allowed
set is answered 400 without reading any bytes of the body (the outcome is
independent of the stream) and without ever creating a file under the
upload directory. -/
theorem upload_unsupported_type_rejected (ctx : ServerCtx)
    (contentType : Option String) (path : String)
    (h : ¬ pyToLower (contentType.getD "") ∈ ALLOWED_CONTENT_TYPES) :
    (∀ chunks chunks', predictEndpoint ctx contentType path chunks =
      predictEndpoint ctx contentType path chunks') ∧
      ∀ chunks, (predictEndpoint ctx contentType path chunks).status = 400 ∧
        (predictEndpoint ctx contentType path chunks).file = none := by
  constructor
  · intro chunks chunks'
    simp [predictEndpoint, h]
  · intro chunks
    simp [predictEndpoint, h]

/-- Witness for C6: `text/plain` is rejected with 400, no file, and the
response is the same whether the stream holds bytes or nothing. -/
theorem upload_unsupported_type_rejected_witness :
    ¬ pyToLower ((some "text/plain").getD "") ∈ ALLOWED_CONTENT_TYPES ∧
      predictEndpoint okCtx (some "text/plain") "p" [[1, 2, 3]] =
        predictEndpoint okCtx (some "text/plain") "p" [] ∧
      (predictEndpoint okCtx (some "text/plain") "p" [[1, 2, 3]]).status =
        400 ∧
      (predictEndpoint okCtx (some "text/plain") "p" [[1, 2, 3]]).file =
        none := by
  have h : ¬ pyToLower ((some "text/plain").getD "") ∈ ALLOWED_CONTENT_TYPES :=
    by decide
  have t := upload_unsupported_type_rejected okCtx (some "text/plain") "p" h
  exact ⟨h, t.1 [[1, 2, 3]] [], (t.2 [[1, 2, 3]]).1, (t.2 [[1, 2, 3]]).2⟩

/-! ## C3 -/

/-- C3: an upload with an allowed content type whose total byte count
exceeds `MAX_UPLOAD_SIZE` is answered 413; after the response the
partially written file does not exist; the over-limit chunk was never
appended (the bytes at the abort instant stay within the ceiling); and
the deletion is idempotent — it also succeeds on an already-absent
file. -/
theorem upload_over_limit_413_cleanup (ctx : ServerCtx)
    (contentType : Option String) (path : String) (chunks : List (List Nat))
    (hct : pyToLower (contentType.getD "") ∈ ALLOWED_CONTENT_TYPES)
    (hne : ∀ c ∈ chunks, c ≠ [])
    (hover : MAX_UPLOAD_SIZE < (chunks.map List.length).sum) :
    ∃ leftover,
      streamWrite MAX_UPLOAD_SIZE chunks 0 [] = .error leftover ∧
        leftover.length ≤ MAX_UPLOAD_SIZE ∧
        (predictEndpoint ctx contentType path chunks).status = 413 ∧
        (predictEndpoint ctx contentType path chunks).file = none ∧
        unlinkIdempotent (some leftover) = none ∧
        unlinkIdempotent none = none := by
  obtain ⟨l, hl, hlen⟩ := streamWrite_overflow MAX_UPLOAD_SIZE chunks 0 []
    hne (by simpa using hover) (by omega) rfl
  refine ⟨l, hl, hlen, ?_, ?_, rfl, rfl⟩ <;>
    simp [predictEndpoint, hct, hl, unlinkIdempotent]

/-- Witness for C3: one 5 MiB + 1 byte chunk of zeros with an allowed
content type triggers the 413 path with no file left behind. -/
theorem upload_over_limit_413_cleanup_witness :
    (pyToLower ((some "image/png").getD "") ∈ ALLOWED_CONTENT_TYPES) ∧
      MAX_UPLOAD_SIZE <
        (([List.replicate (MAX_UPLOAD_SIZE + 1) 0]).map List.length).sum ∧
      ∃ leftover,
        streamWrite MAX_UPLOAD_SIZE [List.replicate (MAX_UPLOAD_SIZE + 1) 0]
            0 [] = .error leftover ∧
          leftover.length ≤ MAX_UPLOAD_SIZE ∧
          (predictEndpoint okCtx (some "image/png") "p"
              [List.replicate (MAX_UPLOAD_SIZE + 1) 0]).status = 413 ∧
          (predictEndpoint okCtx (some "image/png") "p"
              [List.replicate (MAX_UPLOAD_SIZE + 1) 0]).file = none ∧
          unlinkIdempotent (some leftover) = none ∧
          unlinkIdempotent none = none := by
  have hover : MAX_UPLOAD_SIZE <
      (([List.replicate (MAX_UPLOAD_SIZE + 1) 0]).map List.length).sum := by
    rw [List.map_cons, List.map_nil, List.sum_cons, List.sum_nil,
      List.length_replicate]
    omega
  have hne : ∀ c ∈ [List.replicate (MAX_UPLOAD_SIZE + 1) (0 : Nat)],
      c ≠ [] := by
    intro c hc h
    rw [List.mem_singleton] at hc
    subst hc
    have := congrArg List.length h
    rw [List.length_replicate, List.length_nil] at this
    omega
  exact ⟨by decide, hover,
    upload_over_limit_413_cleanup okCtx (some "image/png") "p" _
      (by decide) hne hover⟩

/-! ## C7 -/

/-- C7: an upload with an allowed content type, total size under the
ceiling, content accepted by the image validator, and a model whose
inference does not raise (or no model configured), is answered 200, the
path referenced in the response body is this request's file, and that
file holds exactly the uploaded bytes in order. -/
theorem upload_success_200_exact_bytes (ctx : ServerCtx)
    (contentType : Option String) (path : String) (chunks : List (List Nat))
    (hct : pyToLower (contentType.getD "") ∈ ALLOWED_CONTENT_TYPES)
    (hne : ∀ c ∈ chunks, c ≠ [])
    (hsize : (chunks.map List.length).sum < MAX_UPLOAD_SIZE)
    (himg : ctx.imageOk chunks.flatten = true)
    (hmodel : ∀ msg, ctx.modelOutcome ≠ some (.error msg)) :
    (predictEndpoint ctx contentType path chunks).status = 200 ∧
      (predictEndpoint ctx contentType path chunks).file =
        some chunks.flatten ∧
      (predictEndpoint ctx contentType path chunks).body.pathRef =
        some path := by
  have hw := streamWrite_complete MAX_UPLOAD_SIZE chunks 0 [] hne (by omega)
  rw [List.nil_append] at hw
  rcases hmo : ctx.modelOutcome with _ | r
  · simp [predictEndpoint, hct, hw, himg, hmo, RespBody.pathRef]
  · cases r with
    | ok r => simp [predictEndpoint, hct, hw, himg, hmo, RespBody.pathRef]
    | error msg => exact absurd hmo (hmodel msg)

/-- Witness for C7: a three-byte JPEG-typed upload with a model whose
inference succeeds comes back 200, with the exact bytes on disk and the
path in the body. -/
theorem upload_success_200_exact_bytes_witness :
    (predictEndpoint
        { pillow := true, imageOk := fun _ => true
          modelOutcome := some (.ok (StubModel.infer "p")) }
        (some "image/jpeg") "p" [[1, 2], [3]]).status = 200 ∧
      (predictEndpoint
          { pillow := true, imageOk := fun _ => true
            modelOutcome := some (.ok (StubModel.infer "p")) }
          (some "image/jpeg") "p" [[1, 2], [3]]).file =
        some ([[1, 2], [3]] : List (List Nat)).flatten ∧
      (predictEndpoint
          { pillow := true, imageOk := fun _ => true
            modelOutcome := some (.ok (StubModel.infer "p")) }
          (some "image/jpeg") "p" [[1, 2], [3]]).body.pathRef =
        some "p" := by
  refine upload_success_200_exact_bytes _ (some "image/jpeg") "p"
    [[1, 2], [3]] (by decide) ?_ (by decide) rfl (by simp)
  intro c hc
  simp only [List.mem_cons, List.mem_singleton, List.not_mem_nil,
    or_false] at hc
  rcases hc with rfl | rfl <;> simp

end YoloServing
